import Mathlib

/-!
Shallow embedding of the tool-orchestration core of the `mcp-chat` repository:

* `src/lib/mcp-manager.ts` — the MCP server connection manager (`McpManager`):
  the registry of server connections (a JavaScript `Map`, modelled as an
  insertion-ordered list), `connectToServer` with its retry loop,
  `disconnectServer`, and `callTool`.
* `src/lib/api-service.ts` — the agent loop of `ApiService.sendMessage`:
  conversion of messages to the Anthropic wire shape, the bounded tool-call
  loop with its repeated-call memo, the iteration cap with its summarizing
  final request, and the no-tool fallback request.

External effects are oracles passed as parameters: the Anthropic model is a
function from (tools enabled?, history) to a list of response content blocks,
a connection attempt's spawn/handshake/discovery outcome is a function of the
attempt index, and tool execution is a function from (server, tool, args) or
(tool, args) to a result or an error.  JavaScript's `JSON.stringify` is
modelled on a JSON value type.
-/

/- JSON values, modelling the JavaScript values that `JSON.stringify`
serializes.  Arrays and objects are spelled as mutually inductive types
(rather than `List Json`) so that `stringify` is structurally recursive and
kernel-reducible. -/
mutual

inductive Json where
  | null : Json
  | bool (b : Bool) : Json
  | num (n : Int) : Json
  | str (s : String) : Json
  | arr (xs : JsonArr) : Json
  | obj (fs : JsonObj) : Json

inductive JsonArr where
  | nil : JsonArr
  | cons (hd : Json) (tl : JsonArr) : JsonArr

inductive JsonObj where
  | nil : JsonObj
  | cons (k : String) (v : Json) (tl : JsonObj) : JsonObj

end

/- The escaping `JSON.stringify` applies inside a string literal: quote,
backslash and newline (the escapes that can arise from the values used in
this development; further control-character escapes also map one character
to several and never shrink the text). -/
def escChar (c : Char) : List Char :=
  if c = '"' then ['\\', '"']
  else if c = '\\' then ['\\', '\\']
  else if c = '\n' then ['\\', 'n']
  else [c]

def escChars : List Char → List Char
  | [] => []
  | c :: cs => escChar c ++ escChars cs

def escapeStr (s : String) : String := ⟨escChars s.data⟩

mutual

/-- `JSON.stringify` on a JSON value (no spacing, as JavaScript prints by
default). -/
def Json.stringify : Json → String
  | .null => "null"
  | .bool b => if b then "true" else "false"
  | .num n => toString n
  | .str s => "\"" ++ escapeStr s ++ "\""
  | .arr xs => "[" ++ JsonArr.stringifyItems xs ++ "]"
  | .obj fs => "\x7b" ++ JsonObj.stringifyItems fs ++ "\x7d"

def JsonArr.stringifyItems : JsonArr → String
  | .nil => ""
  | .cons hd tl => Json.stringify hd ++ JsonArr.stringifySep tl

def JsonArr.stringifySep : JsonArr → String
  | .nil => ""
  | .cons hd tl => "," ++ Json.stringify hd ++ JsonArr.stringifySep tl

def JsonObj.stringifyItems : JsonObj → String
  | .nil => ""
  | .cons k v tl => "\"" ++ escapeStr k ++ "\":" ++ Json.stringify v ++ JsonObj.stringifySep tl

def JsonObj.stringifySep : JsonObj → String
  | .nil => ""
  | .cons k v tl => ",\"" ++ escapeStr k ++ "\":" ++ Json.stringify v ++ JsonObj.stringifySep tl

end

example : Json.stringify (Json.obj (.cons "a" (.num 2) .nil)) = "\x7b\"a\":2\x7d" := rfl
example : Json.stringify (Json.str "\x7b\"a\":2\x7d") = "\"\x7b\\\"a\\\":2\x7d\"" := rfl

/-! ## McpManager (`src/lib/mcp-manager.ts`)

The registry `serverConnections : Map<string, McpServerConnection>` is
modelled as a list in insertion order; `Map.set` keeps the position of an
existing key and appends a new one. -/

/-- `McpTool` of mcp-manager.ts: a discovered tool tagged with the server it
came from (`connectToServer` always stores `description || ""`, a string). -/
structure McpTool where
  name : String
  description : String
  input_schema : Json
  serverName : String

/-- `McpServerConnection` of mcp-manager.ts.  `transport` is `some ()` while
the stdio transport is held and `none` once released; the opaque `mcp` Client
handle carries no observable state of its own and is not modelled. -/
structure McpServerConnection where
  serverName : String
  tools : List McpTool
  isConnected : Bool
  transport : Option Unit

/-- One server's entry in `McpServerConfig.mcpServers`.  `args = none` models
a configuration whose `args` is not an array (the `Array.isArray` check). -/
structure ServerLaunchConfig where
  command : String
  args : Option (List String)
  env : List (String × String)

/-- `McpServerConfig`: the mapping from server name to launch configuration. -/
structure McpServerConfig where
  mcpServers : List (String × ServerLaunchConfig)

/-- The empty default configuration `loadConfigFromFile` installs when none
is set (lines 48-51). -/
def emptyConfig : McpServerConfig := ⟨[]⟩

/-- `serverConnections.get(name)` (the first — and, via `Map` semantics, only
— entry under `name`). -/
def findConn (reg : List McpServerConnection) (name : String) : Option McpServerConnection :=
  reg.find? fun c => c.serverName == name

/-- `serverConnections.set(name, c)`: replace the entry under `c.serverName`
in place, or append a new one (JavaScript `Map` insertion-order semantics). -/
def setEntry : List McpServerConnection → McpServerConnection → List McpServerConnection
  | [], c => [c]
  | x :: xs, c => if x.serverName == c.serverName then c :: xs else x :: setEntry xs c

/-- Line 104: `serverConnections.has(name) && serverConnections.get(name)!.isConnected`. -/
def isLive (reg : List McpServerConnection) (name : String) : Bool :=
  (findConn reg name).elim false (·.isConnected)

/-- The state `disconnectServer` forces in its `finally` block (lines 290-293):
`isConnected = false`, `tools = []`, `transport = null`. -/
def deadConn (c : McpServerConnection) : McpServerConnection :=
  { c with isConnected := false, tools := [], transport := none }

/-- `disconnectServer` (lines 269-302).  A missing or already-disconnected
entry is left untouched (line 271).  Otherwise `mcp.close()` and
`transport.close()` are attempted, but every failure of either is caught and
only logged (lines 277-288), so the `finally` state update always runs and
the outer `catch` (line 298) can never re-raise: teardown is total and never
raises to the caller. -/
def disconnectServer (reg : List McpServerConnection) (name : String) :
    List McpServerConnection :=
  match findConn reg name with
  | none => reg
  | some c => if c.isConnected then setEntry reg (deadConn c) else reg

/-- The predicate `callTool` scans with (line 322):
`conn.isConnected && conn.tools.some(t => t.name === name)`. -/
def exposes (name : String) (c : McpServerConnection) : Bool :=
  c.isConnected && c.tools.any fun t => t.name == name

/-- The error message of line 329. -/
def toolNotFoundMsg (name : String) : String :=
  "未找到支持工具 \"" ++ name ++ "\" 的已连接MCP服务器"

/-- `callTool` (lines 317-346): scan `serverConnections.values()` in insertion
order for the first connected connection exposing `name`; delegate to it and
pass the downstream result or error through unchanged; raise when none is
found.  The registry is returned alongside the outcome to make the call's
effect on it explicit: the source never writes to `serverConnections` here.
`exec server tool args` is the downstream `mcp.callTool` (its `.content`
payload, or a raised error). -/
def callTool (exec : String → String → Json → Except String Json)
    (reg : List McpServerConnection) (name : String) (args : Json) :
    Except String Json × List McpServerConnection :=
  match reg.find? (exposes name) with
  | none => (.error (toolNotFoundMsg name), reg)
  | some conn => (exec conn.serverName name args, reg)

/-! ### connectToServer (lines 102-266) -/

/-- A tool as `client.listTools()` reports it (before tagging, lines 189-196);
`description` may be absent. -/
structure RawTool where
  name : String
  description : Option String
  inputSchema : Json

/-- The outcome of everything in one attempt from transport creation on:
spawn/transport construction, `client.connect`, `client.listTools()`, raced
against the timeout timer.  A function `Nat → AttemptOutcome` of the attempt
index is the environment oracle for one `connectToServer` call. -/
inductive AttemptOutcome where
  | transportErr (msg : String)
  | connectClosed
  | connectErr (msg : String)
  | listToolsErr (msg : String)
  | timedOut
  | ok (tools : List RawTool)

/-- The errors `connectToServer` can raise, one per `throw`/`reject` site. -/
inductive ConnErr where
  | configNotFound (server : String)
  | configInvalid (server : String)
  | transportFail (msg : String)
  | connectionClosed
  | connectFail (msg : String)
  | listToolsFail (msg : String)
  | timedOut (ms : Nat)
deriving DecidableEq

/-- `config.mcpServers[serverName]` lookup. -/
def lookupServer (cfg : McpServerConfig) (name : String) : Option ServerLaunchConfig :=
  (cfg.mcpServers.find? fun p => p.1 == name).map (·.2)

/-- The configuration validation of one attempt (lines 132-141): the server
must be present (line 132) and must have a non-empty `command` and an
array-typed `args` (line 139).  Note this check sits INSIDE the retry loop's
`try`. -/
def configCheck (cfg : McpServerConfig) (name : String) :
    Except ConnErr ServerLaunchConfig :=
  match lookupServer cfg name with
  | none => .error (.configNotFound name)
  | some sc =>
      if sc.command = "" || sc.args.isNone then .error (.configInvalid name)
      else .ok sc

/-- Everything in one attempt after configuration validation (lines 143-252):
transport creation, `connect`, `listTools` raced with the timeout; on
discovery success every tool is tagged with `serverName` (lines 189-196). -/
def spawnResult (timeoutMs : Nat) (serverName : String) (out : AttemptOutcome) :
    Except ConnErr (List McpTool) :=
  match out with
  | .transportErr m => .error (.transportFail m)
  | .connectClosed => .error .connectionClosed
  | .connectErr m => .error (.connectFail m)
  | .listToolsErr m => .error (.listToolsFail m)
  | .timedOut => .error (.timedOut timeoutMs)
  | .ok raw => .ok (raw.map fun t => ⟨t.name, t.description.getD "", t.inputSchema, serverName⟩)

/-- One full attempt of the retry loop's `try` body, for a given (normalized)
configuration and the attempt's environment outcome. -/
def attemptResult (cfg : McpServerConfig) (name : String) (timeoutMs : Nat)
    (out : AttemptOutcome) : Except ConnErr (List McpTool) :=
  match configCheck cfg name with
  | .error e => .error e
  | .ok _ => spawnResult timeoutMs name out

/-- What a `connectToServer` call produces: its outcome, the registry and
configuration after the call, and ghost observations of the control flow —
how many loop attempts ran, how many of them reached spawn (passed the
configuration checks), and the backoff waits performed (ms, line 119). -/
structure ConnectResult where
  outcome : Except ConnErr (List McpTool)
  registry : List McpServerConnection
  config : Option McpServerConfig
  attempts : Nat
  spawns : Nat
  backoffs : List Nat

/-- The retry loop of `connectToServer` (lines 115-262), fuel-indexed: the
source iterates `attempt` over `0..retryCount`, so the loop is entered with
`fuel = retryCount + 1` and the fuel-0 fallback is line 265's unreachable
`throw lastError || new Error(...)`.  Before every attempt after the first, a
fixed 1000 ms backoff (lines 116-120).  Lines 124-126 normalize an unset
configuration to the empty one.  On a successful attempt the new connection
is stored with `Map.set` (line 208) and its tools returned; on a failed
attempt the error is re-raised when `attempt === retryCount` (line 258) and
otherwise the loop retries. -/
def connectLoop (oracle : Nat → AttemptOutcome) (name : String)
    (timeoutMs retryCount : Nat) :
    Nat → Nat → Option McpServerConfig → List McpServerConnection →
    Nat → Nat → List Nat → ConnectResult
  | 0, _, cfg, reg, attempts, spawns, backoffs =>
      ⟨.error (.connectFail "无法连接到MCP服务器"), reg, cfg, attempts, spawns, backoffs⟩
  | fuel + 1, attempt, cfg, reg, attempts, spawns, backoffs =>
      let backoffs := if 0 < attempt then backoffs ++ [1000] else backoffs
      let ncfg := cfg.getD emptyConfig
      let spawns := spawns + (if (configCheck ncfg name).isOk then 1 else 0)
      match attemptResult ncfg name timeoutMs (oracle attempt) with
      | .ok tools =>
          ⟨.ok tools, setEntry reg ⟨name, tools, true, some ()⟩, some ncfg,
            attempts + 1, spawns, backoffs⟩
      | .error e =>
          if attempt = retryCount then
            ⟨.error e, reg, some ncfg, attempts + 1, spawns, backoffs⟩
          else
            connectLoop oracle name timeoutMs retryCount fuel (attempt + 1)
              (some ncfg) reg (attempts + 1) spawns backoffs

/-- `connectToServer(serverName, retryCount, timeoutMs)` (lines 102-266): if a
live connection exists under the name it is torn down first (lines 103-110;
`disconnectServer` never raises, so the surrounding `catch` is inert), then
the retry loop runs. -/
def connectToServer (oracle : Nat → AttemptOutcome) (cfg : Option McpServerConfig)
    (reg : List McpServerConnection) (serverName : String)
    (retryCount timeoutMs : Nat) : ConnectResult :=
  let reg := if isLive reg serverName then disconnectServer reg serverName else reg
  connectLoop oracle serverName timeoutMs retryCount (retryCount + 1) 0 cfg reg 0 0 []

/-! ## ApiService.sendMessage (`src/lib/api-service.ts`, lines 65-340) -/

/-- `MessageRole` of api-service.ts. -/
inductive MessageRole where
  | user
  | assistant
  | system
deriving DecidableEq

/-- `MessageContent`: the tagged union of content blocks.  The source spells
it as `{type, text?, tool?}`; the three shapes it actually constructs and
reads are these. -/
inductive MessageContent where
  | text (t : String)
  | toolUse (name : String) (args : Json)
  | toolResult (name : String) (args : Json) (result : Json)

/-- `Message` of api-service.ts.  `id` and `createdAt` are never read by the
orchestration logic and are omitted. -/
structure Message where
  role : MessageRole
  content : List MessageContent

/-- The body of a `MessageParam` sent to the model: either a bare string or a
list of text blocks (lines 76-92 produce exactly these two shapes). -/
inductive AnthropicContent where
  | plain (s : String)
  | blocks (texts : List String)
deriving DecidableEq

/-- One entry of the model-facing conversation history. -/
structure HistEntry where
  role : MessageRole
  content : AnthropicContent
deriving DecidableEq

/-- The conversion of lines 76-92: an empty content list or a single text
block collapses to a bare string; anything else keeps only its text blocks. -/
def toAnthropic (m : Message) : HistEntry :=
  match m.content with
  | [] => ⟨m.role, .plain ""⟩
  | [MessageContent.text t] => ⟨m.role, .plain t⟩
  | cs => ⟨m.role, .blocks (cs.filterMap fun c =>
      match c with
      | .text t => some t
      | _ => none)⟩

/-- One content item of a model response: `{type:"text"}` or
`{type:"tool_use"}` (line 100 of the spec's model-call contract; lines
149-156 of the source). -/
inductive RespBlock where
  | text (t : String)
  | toolUse (name : String) (input : Json)

def isToolUseBlock : RespBlock → Bool
  | .toolUse _ _ => true
  | _ => false

def isTextBlock : RespBlock → Bool
  | .text _ => true
  | _ => false

def isTextContent : MessageContent → Bool
  | .text _ => true
  | _ => false

/-- One entry of the per-call memo `calledTools` (line 121): the source
stores `{name, input: JSON.stringify(content.input)}` — `input` is the
serialized string. -/
structure CalledTool where
  name : String
  input : String
deriving DecidableEq

/-- The probe key of line 158: `` `${content.name}:${JSON.stringify(content.input)}` ``. -/
def toolCallKey (name : String) (input : Json) : String :=
  name ++ ":" ++ input.stringify

/-- The comparison key the source computes for a memo entry (line 160):
`` `${tool.name}:${JSON.stringify(tool.input)}` `` — note `tool.input` is
already a serialized string, and it is passed through `JSON.stringify`
again, which quotes and escapes it. -/
def calledToolKey (t : CalledTool) : String :=
  t.name ++ ":" ++ (Json.str t.input).stringify

/-- Lines 158-161: is this `(name, input)` tool call a repeat of a memoized
one? -/
def isRepeatedCall (memo : List CalledTool) (name : String) (input : Json) : Bool :=
  memo.any fun t => calledToolKey t == toolCallKey name input

/-- Line 167: the explanatory text synthesized on a detected repeat. -/
def explanationText (name : String) : String :=
  "我正在尝试使用工具 " ++ name ++ "，但似乎已经调用过相同的工具。让我整理已获得的信息，为您提供答案。"

/-- Line 224: the assistant placeholder when a tool runs with no text so far. -/
def placeholderText (name : String) : String :=
  "我需要使用工具 " ++ name ++ " 来回答您的问题。"

/-- Line 231: the user-role history entry carrying a serialized tool result. -/
def resultLine (name : String) (result : Json) : String :=
  "工具 " ++ name ++ " 的结果: " ++ result.stringify

/-- Line 257: the user-role history entry for a failed tool call. -/
def failLine (name : String) (err : String) : String :=
  "工具 " ++ name ++ " 调用失败: " ++ err

/-- Line 241: the error-flavored result payload. -/
def toolFailResult : Json := Json.obj (.cons "error" (.str "工具调用失败") .nil)

/-- Line 297: the summarizing prompt issued on reaching the iteration cap,
built from the last input message's text blocks. -/
def capPrompt (question : String) : String :=
  "我提交了一个问题，你尝试使用了多种工具来回答，但似乎需要多次工具调用。请根据目前已获得的信息，总结一下你了解到的内容，并尽可能回答我的问题。原始问题是：" ++ question

/-- The mutable state of the `while` loop of lines 106-284.  `repeatHits` is
a ghost counter mirroring the log at line 164 (how often the repeated-call
branch fired); it changes no behaviour and only lets properties speak about
that branch. -/
structure LoopState where
  messageContent : List MessageContent
  conversationHistory : List HistEntry
  shouldContinue : Bool
  hasAnyToolCalls : Bool
  iterations : Nat
  calledTools : List CalledTool
  repeatHits : Nat

/-- The extra per-round locals of lines 139-147, threaded through the `for`
over the response's content; `broke` records the `break` of line 176 (the
rest of the round's content is skipped once it is set). -/
structure RoundState where
  ls : LoopState
  hasToolCallsThisRound : Bool
  tempContent : List MessageContent
  modelTextResponse : String
  broke : Bool

/-- The body of the `for (const content of response.content)` loop (lines
149-261) for one block.  `exec name input` is `mcpManager.callTool`:
`.ok r` stands for a result with `result.content = r`, `.error e` for a
raised execution error displayed as `e`. -/
def processBlock (exec : String → Json → Except String Json) (iterations : Nat)
    (r : RoundState) (b : RespBlock) : RoundState :=
  if r.broke then r else
  match b with
  | .text t =>
      -- lines 150-155
      { r with tempContent := r.tempContent ++ [.text t], modelTextResponse := t }
  | .toolUse name input =>
      if isRepeatedCall r.ls.calledTools name input then
        -- lines 163-177: synthesize the explanation, stop the loop, break
        { r with
          modelTextResponse := explanationText name,
          tempContent := r.tempContent ++ [.text (explanationText name)],
          ls := { r.ls with shouldContinue := false, repeatHits := r.ls.repeatHits + 1 },
          broke := true }
      else
        -- lines 179-196: memoize, flag the round, emit the toolUse block
        let r : RoundState := { r with
          ls := { r.ls with
            calledTools := r.ls.calledTools ++ [⟨name, input.stringify⟩],
            hasAnyToolCalls := true,
            messageContent := r.ls.messageContent ++ [.toolUse name input] },
          hasToolCallsThisRound := true,
          tempContent := r.tempContent ++ [.toolUse name input] }
        match exec name input with
        | .ok res =>
            -- lines 199-232: toolResult block, then one or two history entries
            { r with
              tempContent := r.tempContent ++ [.toolResult name input res],
              ls := { r.ls with
                messageContent := r.ls.messageContent ++ [.toolResult name input res],
                conversationHistory := r.ls.conversationHistory
                  ++ (if r.modelTextResponse ≠ "" ∨ iterations = 1 then
                        [(⟨.assistant, .plain (if r.modelTextResponse ≠ "" then
                            r.modelTextResponse else placeholderText name)⟩ : HistEntry)]
                      else [])
                  ++ [(⟨.user, .plain (resultLine name res)⟩ : HistEntry)] } }
        | .error e =>
            -- lines 234-258: error-flavored toolResult, then history entries
            { r with
              tempContent := r.tempContent ++ [.toolResult name input toolFailResult],
              ls := { r.ls with
                messageContent := r.ls.messageContent ++ [.toolResult name input toolFailResult],
                conversationHistory := r.ls.conversationHistory
                  ++ (if r.modelTextResponse ≠ "" then
                        [(⟨.assistant, .plain r.modelTextResponse⟩ : HistEntry)]
                      else [])
                  ++ [(⟨.user, .plain (failLine name e)⟩ : HistEntry)] } }

/-- Lines 263-283: after the `for`, a round with no tool calls flushes its
text blocks into the output, appends the final text to history and stops the
loop; a round with tool calls just continues. -/
def finishRound (r : RoundState) : LoopState :=
  if !r.hasToolCallsThisRound then
    let ls := r.ls
    let ls := { ls with
      messageContent := ls.messageContent ++ r.tempContent.filter isTextContent }
    let ls := if r.modelTextResponse ≠ "" then
        { ls with conversationHistory := ls.conversationHistory
            ++ [⟨.assistant, .plain r.modelTextResponse⟩] }
      else ls
    { ls with shouldContinue := false }
  else r.ls

/-- One iteration of the `while` loop (lines 123-284): bump the counter, call
the model with the current history (and the tool catalog iff any tools are
connected — `withTools`), then interpret the response blocks in order. -/
def doRound (model : Bool → List HistEntry → List RespBlock)
    (exec : String → Json → Except String Json) (withTools : Bool)
    (st : LoopState) : LoopState :=
  let st := { st with iterations := st.iterations + 1 }
  let response := model withTools st.conversationHistory
  finishRound (response.foldl (processBlock exec st.iterations) ⟨st, false, [], "", false⟩)

/-- The `while (shouldContinue && iterations < maxIterations)` loop,
fuel-indexed: entered with `fuel = maxIterations` and `iterations = 0`, so
running out of fuel is exactly `iterations` reaching `maxIterations`. -/
def runLoop (model : Bool → List HistEntry → List RespBlock)
    (exec : String → Json → Except String Json) (withTools : Bool) :
    Nat → LoopState → LoopState
  | 0, st => st
  | fuel + 1, st =>
      if st.shouldContinue then
        runLoop model exec withTools fuel (doRound model exec withTools st)
      else st

/-- Line 117: `const maxIterations = 20`. -/
def maxIterations : Nat := 20

/-- Lines 106-121: the loop state at entry; the history is seeded from the
converted caller messages (line 110). -/
def initLoopState (messages : List Message) : LoopState :=
  ⟨[], messages.map toAnthropic, true, false, 0, [], 0⟩

/-- The loop portion of `sendMessage`: the final loop state.  Tools are
attached to the model call iff `tools` (the `mcpManager.getTools()` catalog)
is non-empty (lines 132-135). -/
def sendMessageRun (model : Bool → List HistEntry → List RespBlock)
    (exec : String → Json → Except String Json)
    (tools : List McpTool) (messages : List Message) : LoopState :=
  runLoop model exec (decide (0 < tools.length)) maxIterations (initLoopState messages)

/-- Line 297's `messages[messages.length - 1]...`: the last input message's
text blocks joined with spaces (the source indexes unconditionally; the
default only stands in for the crash on an empty list). -/
def originalQuestion (messages : List Message) : String :=
  String.intercalate " " ((messages.getLastD ⟨.user, []⟩).content.filterMap fun c =>
    match c with
    | MessageContent.text t => some t
    | _ => none)

/-- Lines 291-311: the summarizing final request on hitting the cap — one
plain (tool-less) call whose single user message is `capPrompt`, of whose
response only the FIRST text block is appended. -/
def capText (model : Bool → List HistEntry → List RespBlock)
    (messages : List Message) : List MessageContent :=
  match (model false [⟨.user, .plain (capPrompt (originalQuestion messages))⟩]).find? isTextBlock with
  | some (RespBlock.text t) => [MessageContent.text t]
  | _ => []

/-- Lines 317-331: the defensive fallback request with the original converted
messages; all of its text blocks are appended. -/
def fallbackTexts (model : Bool → List HistEntry → List RespBlock)
    (messages : List Message) : List MessageContent :=
  (model false (messages.map toAnthropic)).filterMap fun b =>
    match b with
    | RespBlock.text t => some (MessageContent.text t)
    | _ => none

/-- `sendMessage` (lines 65-340): the content of the returned assistant
message.  After the loop: if the cap was reached with a tool call still
pending, append the summarizing call's text (lines 287-312); then, if no
tool was ever called and the content is still empty, append the fallback
call's text (lines 315-331). -/
def sendMessage (model : Bool → List HistEntry → List RespBlock)
    (exec : String → Json → Except String Json)
    (tools : List McpTool) (messages : List Message) : List MessageContent :=
  let st := sendMessageRun model exec tools messages
  let afterCap :=
    if maxIterations ≤ st.iterations ∧ st.shouldContinue = true then
      st.messageContent ++ capText model messages
    else st.messageContent
  if st.hasAnyToolCalls = false ∧ afterCap.isEmpty = true then
    afterCap ++ fallbackTexts model messages
  else afterCap

/-! ## Concrete fixtures used by witnesses and counterexamples -/

/-- A tool executor that always succeeds with the result payload `0`. -/
def okExec : String → Json → Except String Json := fun _ _ => .ok (Json.num 0)

/-- A tool executor that echoes the call's arguments as its result. -/
def echoExec : String → Json → Except String Json := fun _ a => .ok a

/-- A one-message input history: the user asking `"q"`. -/
def userMsg : Message := ⟨.user, [.text "q"]⟩

/-- A connected-catalog entry so that `sendMessage` attaches tools. -/
def addTool : McpTool := ⟨"add", "", Json.null, "S"⟩

/-- A model that requests the identical tool call `add({"a":2})` in every
response, round after round. -/
def repeatModel : Bool → List HistEntry → List RespBlock :=
  fun _ _ => [.toolUse "add" (Json.obj (.cons "a" (.num 2) .nil))]

/-! ## Properties of the serialization keys (the repeated-call memo) -/

theorem escChars_length_le (l : List Char) : l.length ≤ (escChars l).length := by
  induction l with
  | nil => simp [escChars]
  | cons c cs ih =>
      have h1 : 1 ≤ (escChar c).length := by
        unfold escChar
        split_ifs <;> simp
      simp only [escChars, List.length_append, List.length_cons]
      omega

theorem stringify_str_data (s : String) :
    (Json.stringify (Json.str s)).data = '"' :: escChars s.data ++ ['"'] := rfl

theorem strLength_append (a b : String) : (a ++ b).length = a.length + b.length := by
  cases a
  cases b
  exact List.length_append ..

/-- Quoting a string under `JSON.stringify` always lengthens it by at least
the two quote characters. -/
theorem stringify_str_length (s : String) :
    s.length + 2 ≤ (Json.stringify (Json.str s)).length := by
  have hd : (Json.stringify (Json.str s)).length = ('"' :: escChars s.data ++ ['"']).length :=
    congrArg List.length (stringify_str_data s)
  have hs : s.length = s.data.length := rfl
  have he := escChars_length_le s.data
  simp only [List.length_append, List.length_cons] at hd
  omega

/-- The heart of the repeated-call bug: the memo entry a tool call records
for itself (line 180 stores `JSON.stringify(input)`) can never match the
probe key of the very same `(name, input)` pair, because the comparison of
line 160 stringifies the stored string a second time, quoting it. -/
theorem calledToolKey_self_ne (name : String) (input : Json) :
    calledToolKey ⟨name, input.stringify⟩ ≠ toolCallKey name input := by
  intro h
  have hlen := congrArg String.length h
  simp only [calledToolKey, toolCallKey, strLength_append] at hlen
  have := stringify_str_length input.stringify
  omega

/-- C1 (code_bug): the spec demands that a `(name, args)` tool call repeated
within one `sendMessage` is not invoked a second time and terminates the call
with an explanatory text block.  The code's repeat check compares
`name + ":" + JSON.stringify(input)` against `name + ":" +
JSON.stringify(memoEntry.input)` where `memoEntry.input` is already the
serialized string, so an exact repeat never matches
(`calledToolKey_self_ne`): against a model that requests the identical call
`add({"a":2})` in every round, the tool is invoked 20 times (one memo entry
per invocation), the repeat branch never fires, and the loop stops only at
the iteration cap. -/
theorem sendMessage_repeat_not_detected :
    (sendMessageRun repeatModel okExec [addTool] [userMsg]).iterations = maxIterations
  ∧ (sendMessageRun repeatModel okExec [addTool] [userMsg]).calledTools.length = maxIterations
  ∧ (sendMessageRun repeatModel okExec [addTool] [userMsg]).calledTools.all
      (fun t => t == ⟨"add", "\x7b\"a\":2\x7d"⟩) = true
  ∧ (sendMessageRun repeatModel okExec [addTool] [userMsg]).repeatHits = 0 :=
  ⟨rfl, rfl, rfl, rfl⟩

/-! ## Registry properties: routing, frame, idempotent teardown -/

theorem find?_append_first {α : Type} (p : α → Bool) (pre : List α) (x : α) (post : List α)
    (hpre : ∀ c ∈ pre, p c = false) (hx : p x = true) :
    (pre ++ x :: post).find? p = some x := by
  induction pre with
  | nil => simp [List.find?_cons_of_pos, hx]
  | cons a l ih =>
      have ha : p a = false := hpre a (List.mem_cons_self ..)
      rw [List.cons_append, List.find?_cons_of_neg _ (by simp [ha])]
      exact ih fun c hc => hpre c (List.mem_cons_of_mem _ hc)

/-- More fixtures: two connected servers where only `"B"` exposes `"search"`. -/
def connA : McpServerConnection := ⟨"A", [⟨"x", "", Json.null, "A"⟩], true, some ()⟩

def connB : McpServerConnection := ⟨"B", [⟨"search", "", Json.null, "B"⟩], true, some ()⟩

/-- A downstream executor that reports which server was called. -/
def whoExec : String → String → Json → Except String Json := fun s _ _ => .ok (Json.str s)

/-- C8: `callTool` routes `(name, args)` to the first connected connection in
registry insertion order whose tool list contains `name` — first-registered
wins — and fails with the ToolNotFound error when no connected connection
exposes the tool. -/
theorem callTool_routes_first_match (exec : String → String → Json → Except String Json)
    (pre post : List McpServerConnection) (conn : McpServerConnection)
    (name : String) (args : Json)
    (hpre : ∀ c ∈ pre, exposes name c = false)
    (hconn : exposes name conn = true) :
    (callTool exec (pre ++ conn :: post) name args).1 = exec conn.serverName name args
  ∧ ∀ reg : List McpServerConnection, (∀ c ∈ reg, exposes name c = false) →
      (callTool exec reg name args).1 = .error (toolNotFoundMsg name) := by
  constructor
  · rw [callTool, find?_append_first (exposes name) pre conn post hpre hconn]
  · intro reg hall
    have hnone : reg.find? (exposes name) = none := by
      rw [List.find?_eq_none]
      intro c hc
      simp [hall c hc]
    rw [callTool, hnone]

/-- C8 witness: with `connA` (no `"search"`) registered before `connB`
(exposing `"search"`), invocation routes to `connB`; `"missing"` is found on
no connection and fails with ToolNotFound. -/
theorem callTool_routes_first_match_witness :
    ((callTool whoExec ([connA] ++ connB :: []) "search" Json.null).1
        = whoExec connB.serverName "search" Json.null
      ∧ ∀ reg : List McpServerConnection, (∀ c ∈ reg, exposes "search" c = false) →
          (callTool whoExec reg "search" Json.null).1 = .error (toolNotFoundMsg "search"))
  ∧ (callTool whoExec [connA, connB] "missing" Json.null).1
      = .error (toolNotFoundMsg "missing") := by
  refine ⟨callTool_routes_first_match whoExec [connA] [] connB "search" Json.null ?_ ?_, ?_⟩
  · intro c hc
    simp only [List.mem_singleton] at hc
    subst hc
    rfl
  · rfl
  · rfl

/-- C10: invoking a tool never mutates the registry: whatever the executor
does (success or failure), `callTool` returns the registry — every
connection, its `isConnected` flag and its tool list — exactly as it was. -/
theorem callTool_preserves_registry (exec : String → String → Json → Except String Json)
    (reg : List McpServerConnection) (name : String) (args : Json) :
    (callTool exec reg name args).2 = reg := by
  rw [callTool]
  cases reg.find? (exposes name) <;> rfl

/-- Replacing (or appending) the entry under `c.serverName` makes it the one
`findConn` returns for that name. -/
theorem findConn_setEntry_self (reg : List McpServerConnection) (c : McpServerConnection) :
    findConn (setEntry reg c) c.serverName = some c := by
  induction reg with
  | nil => simp [setEntry, findConn, List.find?_cons_of_pos]
  | cons x xs ih =>
      by_cases hx : x.serverName == c.serverName
      · simp only [setEntry, hx, if_pos]
        simp [findConn, List.find?_cons_of_pos]
      · simp only [setEntry, hx, if_neg, Bool.false_eq_true, not_false_eq_true]
        rw [findConn, List.find?_cons_of_neg _ (by simpa using hx)]
        exact ih

theorem disconnectServer_of_none (reg : List McpServerConnection) (name : String)
    (h : findConn reg name = none) : disconnectServer reg name = reg := by
  simp [disconnectServer, h]

theorem disconnectServer_of_dead (reg : List McpServerConnection) (name : String)
    (c : McpServerConnection) (h : findConn reg name = some c)
    (hc : c.isConnected = false) : disconnectServer reg name = reg := by
  simp [disconnectServer, h, hc]

theorem disconnectServer_of_live (reg : List McpServerConnection) (name : String)
    (c : McpServerConnection) (h : findConn reg name = some c)
    (hc : c.isConnected = true) :
    disconnectServer reg name = setEntry reg (deadConn c) := by
  simp [disconnectServer, h, hc]

theorem findConn_name (reg : List McpServerConnection) (name : String)
    (c : McpServerConnection) (h : findConn reg name = some c) : c.serverName = name := by
  have := List.find?_some h
  simpa using this

/-- C9: `disconnect` is idempotent — a second `disconnect(name)` right after
a first returns the identical registry (and, the embedding being total by
lines 277-288's swallowed close errors, never raises); disconnecting an
absent or already-disconnected name is a no-op; and a live entry ends fully
dead: `connected = false`, `tools = []`, transport handle released. -/
theorem disconnectServer_idempotent (reg : List McpServerConnection) (name : String) :
    disconnectServer (disconnectServer reg name) name = disconnectServer reg name
  ∧ (isLive reg name = false → disconnectServer reg name = reg)
  ∧ (∀ c, findConn reg name = some c → c.isConnected = true →
      findConn (disconnectServer reg name) name = some (deadConn c)) := by
  refine ⟨?_, ?_, ?_⟩
  · match hfc : findConn reg name with
    | none =>
        rw [disconnectServer_of_none reg name hfc, disconnectServer_of_none reg name hfc]
    | some c =>
        by_cases hl : c.isConnected = true
        · have hname : c.serverName = name := findConn_name reg name c hfc
          have h1 := disconnectServer_of_live reg name c hfc hl
          have h2 : findConn (setEntry reg (deadConn c)) name = some (deadConn c) := by
            have := findConn_setEntry_self reg (deadConn c)
            simpa [deadConn, hname] using this
          rw [h1, disconnectServer_of_dead _ name (deadConn c) h2 rfl]
        · have hl' : c.isConnected = false := by
            simpa using hl
          rw [disconnectServer_of_dead reg name c hfc hl',
            disconnectServer_of_dead reg name c hfc hl']
  · intro hlive
    match hfc : findConn reg name with
    | none => exact disconnectServer_of_none reg name hfc
    | some c =>
        have hnc : c.isConnected = false := by
          simpa [isLive, hfc] using hlive
        exact disconnectServer_of_dead reg name c hfc hnc
  · intro c hfc hl
    rw [disconnectServer_of_live reg name c hfc hl]
    have := findConn_setEntry_self reg (deadConn c)
    simpa [deadConn, findConn_name reg name c hfc] using this

/-- A disconnected fixture entry. -/
def deadY : McpServerConnection := ⟨"Y", [], false, none⟩

/-- C9 witness: disconnecting the absent name `"X"` on `[deadY]` is a no-op,
twice over. -/
theorem disconnectServer_idempotent_witness :
    disconnectServer (disconnectServer [deadY] "X") "X" = disconnectServer [deadY] "X"
  ∧ disconnectServer [deadY] "X" = [deadY] :=
  ⟨(disconnectServer_idempotent [deadY] "X").1,
   (disconnectServer_idempotent [deadY] "X").2.1 (by rfl)⟩

/-! ## Connect: retry ceiling, configuration errors, registry on failure -/

/-- One failing step of the retry loop: backoff bookkeeping, then either the
final re-raise (`attempt === retryCount`) or the recursive retry. -/
theorem connectLoop_step_fail (oracle : Nat → AttemptOutcome) (name : String)
    (timeoutMs retryCount f k : Nat) (cfg : Option McpServerConfig)
    (ncfg : McpServerConfig) (hcfg : cfg.getD emptyConfig = ncfg)
    (e : ConnErr) (hA : attemptResult ncfg name timeoutMs (oracle k) = .error e)
    (reg : List McpServerConnection) (attempts spawns : Nat) (backoffs : List Nat) :
    connectLoop oracle name timeoutMs retryCount (f + 1) k cfg reg attempts spawns backoffs
      = if k = retryCount then
          ⟨.error e, reg, some ncfg, attempts + 1,
           spawns + (if (configCheck ncfg name).isOk then 1 else 0),
           if 0 < k then backoffs ++ [1000] else backoffs⟩
        else
          connectLoop oracle name timeoutMs retryCount f (k + 1) (some ncfg) reg
            (attempts + 1)
            (spawns + (if (configCheck ncfg name).isOk then 1 else 0))
            (if 0 < k then backoffs ++ [1000] else backoffs) := by
  simp only [connectLoop, hcfg, hA]

/-- When every attempt from index `k` through `retryCount` fails, the loop
performs exactly one iteration per remaining attempt, waits the fixed 1000 ms
backoff before every attempt after attempt 0, leaves the registry untouched,
and raises the final attempt's error. -/
theorem connectLoop_allFail (oracle : Nat → AttemptOutcome) (name : String)
    (timeoutMs retryCount : Nat) (ncfg : McpServerConfig) :
    ∀ (fuel k : Nat), fuel + k = retryCount + 1 → k ≤ retryCount →
    (∀ i, k ≤ i → i ≤ retryCount →
      (attemptResult ncfg name timeoutMs (oracle i)).isOk = false) →
    ∀ (cfg : Option McpServerConfig), cfg.getD emptyConfig = ncfg →
    ∀ (reg : List McpServerConnection) (attempts spawns : Nat) (backoffs : List Nat),
    connectLoop oracle name timeoutMs retryCount fuel k cfg reg attempts spawns backoffs
      = ⟨attemptResult ncfg name timeoutMs (oracle retryCount), reg, some ncfg,
         attempts + fuel,
         spawns + (if (configCheck ncfg name).isOk then 1 else 0) * fuel,
         backoffs ++ List.replicate (if k = 0 then fuel - 1 else fuel) 1000⟩ := by
  intro fuel
  induction fuel with
  | zero => intro k hfk hk _; omega
  | succ f ih =>
      intro k hfk hk hfail cfg hcfg reg attempts spawns backoffs
      have hko : (attemptResult ncfg name timeoutMs (oracle k)).isOk = false :=
        hfail k le_rfl hk
      obtain ⟨e, hA⟩ : ∃ e, attemptResult ncfg name timeoutMs (oracle k) = .error e := by
        cases hA : attemptResult ncfg name timeoutMs (oracle k) with
        | error e => exact ⟨e, rfl⟩
        | ok v => rw [hA] at hko; simp [Except.isOk, Except.toBool] at hko
      rw [connectLoop_step_fail oracle name timeoutMs retryCount f k cfg ncfg hcfg e hA
        reg attempts spawns backoffs]
      by_cases hkr : k = retryCount
      · subst hkr
        have hf0 : f = 0 := by omega
        subst hf0
        rw [if_pos rfl, ← hA]
        congr 1
        · omega
        · by_cases hk0 : k = 0
          · subst hk0
            simp
          · have hpos : 0 < k := Nat.pos_of_ne_zero hk0
            simp [hpos, hk0]
      · rw [if_neg hkr]
        rw [ih (k + 1) (by omega) (by omega)
          (fun i hi hir => hfail i (by omega) hir) (some ncfg) rfl reg
          (attempts + 1) (spawns + (if (configCheck ncfg name).isOk then 1 else 0))
          (if 0 < k then backoffs ++ [1000] else backoffs)]
        have hk1 : ¬(k + 1 = 0) := by omega
        congr 1
        · omega
        · rw [Nat.mul_succ]
          omega
        · rw [if_neg hk1]
          by_cases hk0 : k = 0
          · subst hk0
            simp
          · have hpos : 0 < k := Nat.pos_of_ne_zero hk0
            simp [hpos, hk0, List.append_assoc, List.replicate_succ]

/-- C7: a `connect` configured with retry count `retryCount` whose every
attempt fails performs exactly `retryCount + 1` attempts, with the fixed
1000 ms backoff before each attempt after the first, and raises the error of
the final attempt. -/
theorem connect_retry_ceiling (oracle : Nat → AttemptOutcome)
    (cfg : Option McpServerConfig) (reg : List McpServerConnection)
    (name : String) (retryCount timeoutMs : Nat)
    (hfail : ∀ i, i ≤ retryCount →
      (attemptResult (cfg.getD emptyConfig) name timeoutMs (oracle i)).isOk = false) :
    (connectToServer oracle cfg reg name retryCount timeoutMs).attempts = retryCount + 1
  ∧ (connectToServer oracle cfg reg name retryCount timeoutMs).backoffs
      = List.replicate retryCount 1000
  ∧ (connectToServer oracle cfg reg name retryCount timeoutMs).outcome
      = attemptResult (cfg.getD emptyConfig) name timeoutMs (oracle retryCount) := by
  rw [connectToServer,
    connectLoop_allFail oracle name timeoutMs retryCount (cfg.getD emptyConfig)
      (retryCount + 1) 0 rfl (Nat.zero_le _) (fun i _ hir => hfail i hir) cfg rfl
      (if isLive reg name then disconnectServer reg name else reg) 0 0 []]
  refine ⟨by simp, by simp, rfl⟩

/-- A fixture configuration that does carry a valid entry for `"X"`. -/
def goodCfgX : McpServerConfig := ⟨[("X", ⟨"cmd", some [], []⟩)]⟩

/-- A connection-attempt oracle on which every attempt fails at handshake. -/
def failOracle : Nat → AttemptOutcome := fun _ => .connectClosed

/-- C7 witness: with `retries = 2` and every attempt failing, `connect`
performs 3 attempts, waits twice, and raises the final attempt's error. -/
theorem connect_retry_ceiling_witness :
    (connectToServer failOracle (some goodCfgX) [] "X" 2 10000).attempts = 2 + 1
  ∧ (connectToServer failOracle (some goodCfgX) [] "X" 2 10000).backoffs
      = List.replicate 2 1000
  ∧ (connectToServer failOracle (some goodCfgX) [] "X" 2 10000).outcome
      = attemptResult ((some goodCfgX).getD emptyConfig) "X" 10000 (failOracle 2) :=
  connect_retry_ceiling failOracle (some goodCfgX) [] "X" 2 10000 (by decide)

/-- An attempt oracle that would succeed instantly — used where the claim is
that spawning is never even reached. -/
def neverConsulted : Nat → AttemptOutcome := fun _ => .ok []

/-- C3 counterexample: with a configuration that has no entry for `"X"` and
`retryCount = 2`, `connect` does NOT fail immediately: it performs 3 attempts
with two 1000 ms backoff waits before raising the configuration error (it
does, however, never reach a spawn: `spawns = 0`). -/
theorem connect_config_error_retried_cex :
    (connectToServer neverConsulted (some emptyConfig) [] "X" 2 10000).attempts = 3
  ∧ (connectToServer neverConsulted (some emptyConfig) [] "X" 2 10000).backoffs
      = [1000, 1000]
  ∧ (connectToServer neverConsulted (some emptyConfig) [] "X" 2 10000).spawns = 0
  ∧ (connectToServer neverConsulted (some emptyConfig) [] "X" 2 10000).outcome
      = .error (.configNotFound "X") :=
  ⟨rfl, rfl, rfl, rfl⟩

/-- C3 (amended): a missing or invalid launch configuration makes every
attempt fail before any spawn is reached (`spawns = 0`), but the
configuration error is subject to the retry/backoff loop like any other
error: `connect` performs `retryCount + 1` attempts, with the fixed backoff
between them, before raising the configuration error. -/
theorem connect_config_error_after_retries (oracle : Nat → AttemptOutcome)
    (cfg : Option McpServerConfig) (reg : List McpServerConnection)
    (name : String) (retryCount timeoutMs : Nat) (e : ConnErr)
    (hcfg : configCheck (cfg.getD emptyConfig) name = .error e) :
    (connectToServer oracle cfg reg name retryCount timeoutMs).outcome = .error e
  ∧ (connectToServer oracle cfg reg name retryCount timeoutMs).attempts = retryCount + 1
  ∧ (connectToServer oracle cfg reg name retryCount timeoutMs).spawns = 0
  ∧ (connectToServer oracle cfg reg name retryCount timeoutMs).backoffs
      = List.replicate retryCount 1000 := by
  have hA : ∀ i : Nat, attemptResult (cfg.getD emptyConfig) name timeoutMs (oracle i)
      = .error e := by
    intro i
    rw [attemptResult, hcfg]
  rw [connectToServer,
    connectLoop_allFail oracle name timeoutMs retryCount (cfg.getD emptyConfig)
      (retryCount + 1) 0 rfl (Nat.zero_le _)
      (fun i _ _ => by rw [hA i]; rfl) cfg rfl
      (if isLive reg name then disconnectServer reg name else reg) 0 0 []]
  have hok : (configCheck (cfg.getD emptyConfig) name).isOk = false := by
    rw [hcfg]
    rfl
  refine ⟨by rw [hA], by simp, by rw [hok]; simp, by simp⟩

/-- C3 witness: the amended claim at the concrete missing-`"X"` input. -/
theorem connect_config_error_after_retries_witness :
    (connectToServer neverConsulted (some emptyConfig) [] "X" 2 10000).outcome
      = .error (.configNotFound "X")
  ∧ (connectToServer neverConsulted (some emptyConfig) [] "X" 2 10000).attempts = 2 + 1
  ∧ (connectToServer neverConsulted (some emptyConfig) [] "X" 2 10000).spawns = 0
  ∧ (connectToServer neverConsulted (some emptyConfig) [] "X" 2 10000).backoffs
      = List.replicate 2 1000 :=
  connect_config_error_after_retries neverConsulted (some emptyConfig) [] "X" 2 10000
    (.configNotFound "X") rfl

/-- A live fixture connection named `"X"` holding one tool and its transport. -/
def liveX : McpServerConnection := ⟨"X", [⟨"t", "", Json.null, "X"⟩], true, some ()⟩

/-- C4 counterexample: with a live connection already registered under `"X"`,
a `connect("X")` whose every attempt fails does NOT leave the registry as it
was: the pre-attempt teardown has marked the entry disconnected and cleared
its tools. -/
theorem connect_failure_teardown_cex :
    (connectToServer neverConsulted (some emptyConfig) [liveX] "X" 0 10000).registry
      = [⟨"X", [], false, none⟩]
  ∧ (connectToServer neverConsulted (some emptyConfig) [liveX] "X" 0 10000).registry
      ≠ [liveX] := by
  refine ⟨rfl, ?_⟩
  intro h
  rw [show (connectToServer neverConsulted (some emptyConfig) [liveX] "X" 0 10000).registry
      = [⟨"X", [], false, none⟩] from rfl] at h
  simp [liveX] at h

/-- C4 (amended): a failed `connect(name)` adds and removes no entry and
leaves every other name's entry untouched — the registry after the failure
is exactly the registry after the pre-attempt teardown: unchanged when no
live connection existed under `name`, and with `name`'s entry left
disconnected (tools cleared, transport released) when one did. -/
theorem connect_failure_registry (oracle : Nat → AttemptOutcome)
    (cfg : Option McpServerConfig) (reg : List McpServerConnection)
    (name : String) (retryCount timeoutMs : Nat)
    (hfail : ∀ i, i ≤ retryCount →
      (attemptResult (cfg.getD emptyConfig) name timeoutMs (oracle i)).isOk = false) :
    (connectToServer oracle cfg reg name retryCount timeoutMs).registry
      = if isLive reg name then disconnectServer reg name else reg := by
  rw [connectToServer,
    connectLoop_allFail oracle name timeoutMs retryCount (cfg.getD emptyConfig)
      (retryCount + 1) 0 rfl (Nat.zero_le _) (fun i _ hir => hfail i hir) cfg rfl
      (if isLive reg name then disconnectServer reg name else reg) 0 0 []]

/-- C4 witness: the amended claim at a concrete input with a live prior
connection and an always-failing handshake. -/
theorem connect_failure_registry_witness :
    (connectToServer failOracle (some goodCfgX) [liveX] "X" 2 10000).registry
      = if isLive [liveX] "X" then disconnectServer [liveX] "X" else [liveX] :=
  connect_failure_registry failOracle (some goodCfgX) [liveX] "X" 2 10000 (by decide)

/-! ## The sendMessage loop: equation and preservation lemmas -/

theorem processBlock_text (exec : String → Json → Except String Json) (it : Nat)
    (r : RoundState) (t : String) (hbroke : r.broke = false) :
    processBlock exec it r (.text t)
      = { r with tempContent := r.tempContent ++ [.text t], modelTextResponse := t } := by
  simp [processBlock, hbroke]

theorem processBlock_repeat (exec : String → Json → Except String Json) (it : Nat)
    (r : RoundState) (name : String) (input : Json) (hbroke : r.broke = false)
    (hrc : isRepeatedCall r.ls.calledTools name input = true) :
    processBlock exec it r (.toolUse name input)
      = { r with
          modelTextResponse := explanationText name,
          tempContent := r.tempContent ++ [.text (explanationText name)],
          ls := { r.ls with shouldContinue := false, repeatHits := r.ls.repeatHits + 1 },
          broke := true } := by
  simp [processBlock, hbroke, hrc]

theorem processBlock_tool_ok (exec : String → Json → Except String Json) (it : Nat)
    (r : RoundState) (name : String) (input res : Json) (hbroke : r.broke = false)
    (hrc : isRepeatedCall r.ls.calledTools name input = false)
    (hexec : exec name input = .ok res) :
    processBlock exec it r (.toolUse name input)
      = { r with
          hasToolCallsThisRound := true,
          tempContent := r.tempContent
            ++ [.toolUse name input, .toolResult name input res],
          ls := { r.ls with
            calledTools := r.ls.calledTools ++ [⟨name, input.stringify⟩],
            hasAnyToolCalls := true,
            messageContent := r.ls.messageContent
              ++ [.toolUse name input, .toolResult name input res],
            conversationHistory := r.ls.conversationHistory
              ++ (if r.modelTextResponse ≠ "" ∨ it = 1 then
                    [(⟨.assistant, .plain (if r.modelTextResponse ≠ "" then
                        r.modelTextResponse else placeholderText name)⟩ : HistEntry)]
                  else [])
              ++ [(⟨.user, .plain (resultLine name res)⟩ : HistEntry)] } } := by
  simp [processBlock, hbroke, hrc, hexec, List.append_assoc]

theorem processBlock_tool_err (exec : String → Json → Except String Json) (it : Nat)
    (r : RoundState) (name : String) (input : Json) (e : String)
    (hbroke : r.broke = false)
    (hrc : isRepeatedCall r.ls.calledTools name input = false)
    (hexec : exec name input = .error e) :
    processBlock exec it r (.toolUse name input)
      = { r with
          hasToolCallsThisRound := true,
          tempContent := r.tempContent
            ++ [.toolUse name input, .toolResult name input toolFailResult],
          ls := { r.ls with
            calledTools := r.ls.calledTools ++ [⟨name, input.stringify⟩],
            hasAnyToolCalls := true,
            messageContent := r.ls.messageContent
              ++ [.toolUse name input, .toolResult name input toolFailResult],
            conversationHistory := r.ls.conversationHistory
              ++ (if r.modelTextResponse ≠ "" then
                    [(⟨.assistant, .plain r.modelTextResponse⟩ : HistEntry)]
                  else [])
              ++ [(⟨.user, .plain (failLine name e)⟩ : HistEntry)] } } := by
  simp [processBlock, hbroke, hrc, hexec, List.append_assoc]

theorem processBlock_repeatHits_le (exec : String → Json → Except String Json)
    (it : Nat) (r : RoundState) (b : RespBlock) :
    r.ls.repeatHits ≤ (processBlock exec it r b).ls.repeatHits := by
  by_cases hbroke : r.broke = true
  · simp [processBlock, hbroke]
  · have hb : r.broke = false := by simpa using hbroke
    cases b with
    | text t => rw [processBlock_text exec it r t hb]
    | toolUse name input =>
        by_cases hrc : isRepeatedCall r.ls.calledTools name input = true
        · rw [processBlock_repeat exec it r name input hb hrc]
          simp
        · have hrc' : isRepeatedCall r.ls.calledTools name input = false := by
            simpa using hrc
          cases hexec : exec name input with
          | ok res => rw [processBlock_tool_ok exec it r name input res hb hrc' hexec]
          | error e => rw [processBlock_tool_err exec it r name input e hb hrc' hexec]

theorem foldl_repeatHits_le (exec : String → Json → Except String Json) (it : Nat)
    (bs : List RespBlock) :
    ∀ r : RoundState, r.ls.repeatHits ≤ (bs.foldl (processBlock exec it) r).ls.repeatHits := by
  induction bs with
  | nil =>
      intro r
      simp
  | cons b bs ih =>
      intro r
      rw [List.foldl_cons]
      exact le_trans (processBlock_repeatHits_le exec it r b) (ih _)

/-- Field-level effect of a processed text block. -/
theorem processBlock_text_facts (exec : String → Json → Except String Json) (it : Nat)
    (r : RoundState) (t : String) (hb : r.broke = false) :
    (processBlock exec it r (.text t)).broke = false
  ∧ (processBlock exec it r (.text t)).ls = r.ls
  ∧ (processBlock exec it r (.text t)).hasToolCallsThisRound = r.hasToolCallsThisRound := by
  rw [processBlock_text exec it r t hb]
  exact ⟨hb, rfl, rfl⟩

/-- Field-level effect of a processed, non-repeated tool_use block (success
or failure alike). -/
theorem processBlock_toolUse_facts (exec : String → Json → Except String Json) (it : Nat)
    (r : RoundState) (name : String) (input : Json) (hb : r.broke = false)
    (hrc : isRepeatedCall r.ls.calledTools name input = false) :
    (processBlock exec it r (.toolUse name input)).broke = false
  ∧ (processBlock exec it r (.toolUse name input)).ls.repeatHits = r.ls.repeatHits
  ∧ (processBlock exec it r (.toolUse name input)).hasToolCallsThisRound = true
  ∧ (processBlock exec it r (.toolUse name input)).ls.hasAnyToolCalls = true
  ∧ (processBlock exec it r (.toolUse name input)).ls.shouldContinue = r.ls.shouldContinue
  ∧ (processBlock exec it r (.toolUse name input)).ls.iterations = r.ls.iterations := by
  cases hexec : exec name input with
  | ok res =>
      rw [processBlock_tool_ok exec it r name input res hb hrc hexec]
      exact ⟨hb, rfl, rfl, rfl, rfl, rfl⟩
  | error e =>
      rw [processBlock_tool_err exec it r name input e hb hrc hexec]
      exact ⟨hb, rfl, rfl, rfl, rfl, rfl⟩

/-- Whole-round effect of the `for` over the response blocks when the
repeated-call branch never fires in it (conveyed by the unchanged ghost
counter): broke and shouldContinue are untouched, the round's tool flags are
set exactly when a tool_use block occurs, and the iteration counter is
untouched. -/
theorem foldl_processBlock_noRepeat (exec : String → Json → Except String Json)
    (it : Nat) (bs : List RespBlock) :
    ∀ r : RoundState, r.broke = false →
    (bs.foldl (processBlock exec it) r).ls.repeatHits = r.ls.repeatHits →
    (bs.foldl (processBlock exec it) r).ls.shouldContinue = r.ls.shouldContinue
  ∧ (bs.foldl (processBlock exec it) r).hasToolCallsThisRound
      = (r.hasToolCallsThisRound || bs.any isToolUseBlock)
  ∧ (bs.foldl (processBlock exec it) r).ls.hasAnyToolCalls
      = (r.ls.hasAnyToolCalls || bs.any isToolUseBlock)
  ∧ (bs.foldl (processBlock exec it) r).ls.iterations = r.ls.iterations := by
  induction bs with
  | nil =>
      intro r _ _
      simp
  | cons b bs ih =>
      intro r hb hrep
      rw [List.foldl_cons] at hrep ⊢
      cases b with
      | text t =>
          obtain ⟨f1, f2, f3⟩ := processBlock_text_facts exec it r t hb
          obtain ⟨h1, h2, h3, h4⟩ := ih _ f1 (by rw [f2]; exact hrep)
          refine ⟨by rw [h1, f2], ?_, ?_, by rw [h4, f2]⟩
          · rw [h2, f3]
            simp [isToolUseBlock]
          · rw [h3, f2]
            simp [isToolUseBlock]
      | toolUse name input =>
          by_cases hrc : isRepeatedCall r.ls.calledTools name input = true
          · exfalso
            have hstep : (processBlock exec it r (.toolUse name input)).ls.repeatHits
                = r.ls.repeatHits + 1 := by
              rw [processBlock_repeat exec it r name input hb hrc]
            have hmono := foldl_repeatHits_le exec it bs
              (processBlock exec it r (.toolUse name input))
            omega
          · have hrc' : isRepeatedCall r.ls.calledTools name input = false := by
              simpa using hrc
            obtain ⟨f1, f2, f3, f4, f5, f6⟩ :=
              processBlock_toolUse_facts exec it r name input hb hrc'
            obtain ⟨h1, h2, h3, h4⟩ := ih _ f1 (by rw [f2]; exact hrep)
            refine ⟨by rw [h1, f5], ?_, ?_, by rw [h4, f6]⟩
            · rw [h2, f3]
              simp [isToolUseBlock]
            · rw [h3, f4]
              simp [isToolUseBlock]

theorem finishRound_of_toolCalls (r : RoundState) (h : r.hasToolCallsThisRound = true) :
    finishRound r = r.ls := by
  simp [finishRound, h]

theorem finishRound_shouldContinue_false (r : RoundState)
    (h : r.hasToolCallsThisRound = false) :
    (finishRound r).shouldContinue = false := by
  by_cases h2 : r.modelTextResponse = "" <;> simp [finishRound, h, h2]

theorem finishRound_repeatHits (r : RoundState) :
    (finishRound r).repeatHits = r.ls.repeatHits := by
  by_cases h : r.hasToolCallsThisRound <;>
    by_cases h2 : r.modelTextResponse = "" <;> simp [finishRound, h, h2]

theorem runLoop_of_stop (model : Bool → List HistEntry → List RespBlock)
    (exec : String → Json → Except String Json) (wt : Bool) (fuel : Nat)
    (st : LoopState) (h : st.shouldContinue = false) :
    runLoop model exec wt fuel st = st := by
  cases fuel <;> simp [runLoop, h]

theorem runLoop_succ_of_go (model : Bool → List HistEntry → List RespBlock)
    (exec : String → Json → Except String Json) (wt : Bool) (fuel : Nat)
    (st : LoopState) (h : st.shouldContinue = true) :
    runLoop model exec wt (fuel + 1) st
      = runLoop model exec wt fuel (doRound model exec wt st) := by
  simp [runLoop, h]

theorem doRound_repeatHits_le (model : Bool → List HistEntry → List RespBlock)
    (exec : String → Json → Except String Json) (wt : Bool) (st : LoopState) :
    st.repeatHits ≤ (doRound model exec wt st).repeatHits := by
  simp only [doRound]
  rw [finishRound_repeatHits]
  exact foldl_repeatHits_le exec (st.iterations + 1) (model wt st.conversationHistory)
    ⟨⟨st.messageContent, st.conversationHistory, st.shouldContinue, st.hasAnyToolCalls,
      st.iterations + 1, st.calledTools, st.repeatHits⟩, false, [], "", false⟩

theorem runLoop_repeatHits_le (model : Bool → List HistEntry → List RespBlock)
    (exec : String → Json → Except String Json) (wt : Bool) (fuel : Nat) :
    ∀ st : LoopState, st.repeatHits ≤ (runLoop model exec wt fuel st).repeatHits := by
  induction fuel with
  | zero =>
      intro st
      simp [runLoop]
  | succ f ih =>
      intro st
      by_cases h : st.shouldContinue = true
      · rw [runLoop_succ_of_go model exec wt f st h]
        exact le_trans (doRound_repeatHits_le model exec wt st) (ih _)
      · rw [runLoop_of_stop model exec wt (f + 1) st (by simpa using h)]

/-- One round against a response that contains a tool_use block, in which the
repeated-call branch does not fire: the loop flag survives, the iteration
counter advances by one, and `hasAnyToolCalls` is set. -/
theorem doRound_of_toolUse (model : Bool → List HistEntry → List RespBlock)
    (exec : String → Json → Except String Json) (wt : Bool) (st : LoopState)
    (hblocks : (model wt st.conversationHistory).any isToolUseBlock = true)
    (hrep : (doRound model exec wt st).repeatHits = st.repeatHits) :
    (doRound model exec wt st).shouldContinue = st.shouldContinue
  ∧ (doRound model exec wt st).iterations = st.iterations + 1
  ∧ (doRound model exec wt st).hasAnyToolCalls = true := by
  simp only [doRound] at hrep ⊢
  rw [finishRound_repeatHits] at hrep
  obtain ⟨h1, h2, h3, h4⟩ := foldl_processBlock_noRepeat exec _ _ _ rfl hrep
  rw [finishRound_of_toolCalls _ (by simp [h2, hblocks])]
  refine ⟨by simp [h1], by simp [h4], by simp [h3, hblocks]⟩

/-- The loop against a model that answers every tool-enabled request with at
least one tool_use block, on a run in which the repeated-call branch never
fires: every unit of fuel is spent (one model round trip each), the loop
flag stays up, and any fuel at all records a tool call. -/
theorem runLoop_allTool (model : Bool → List HistEntry → List RespBlock)
    (exec : String → Json → Except String Json) (fuel : Nat) :
    ∀ st : LoopState,
    (∀ h, (model true h).any isToolUseBlock = true) →
    st.shouldContinue = true →
    (runLoop model exec true fuel st).repeatHits = st.repeatHits →
    (runLoop model exec true fuel st).iterations = st.iterations + fuel
  ∧ (runLoop model exec true fuel st).shouldContinue = true
  ∧ (runLoop model exec true fuel st).hasAnyToolCalls
      = (st.hasAnyToolCalls || decide (0 < fuel)) := by
  induction fuel with
  | zero =>
      intro st _ hsc _
      simp [runLoop, hsc]
  | succ f ih =>
      intro st hmodel hsc hrep
      rw [runLoop_succ_of_go model exec true f st hsc] at hrep ⊢
      have hd_le := doRound_repeatHits_le model exec true st
      have hr_le := runLoop_repeatHits_le model exec true f (doRound model exec true st)
      have hrep1 : (doRound model exec true st).repeatHits = st.repeatHits := by omega
      have hreploop : (runLoop model exec true f (doRound model exec true st)).repeatHits
          = (doRound model exec true st).repeatHits := by omega
      obtain ⟨hd1, hd2, hd3⟩ := doRound_of_toolUse model exec true st (hmodel _) hrep1
      have hsc1 : (doRound model exec true st).shouldContinue = true := by
        rw [hd1]
        exact hsc
      obtain ⟨g1, g2, g3⟩ := ih (doRound model exec true st) hmodel hsc1 hreploop
      refine ⟨?_, g2, ?_⟩
      · rw [g1, hd2]
        omega
      · rw [g3, hd3]
        simp

/-! ## Text blocks and the output accumulator -/

/-- No text block occurs in the list. -/
def noTextBlocks (l : List MessageContent) : Bool := l.all fun c => !isTextContent c

theorem processBlock_noText (exec : String → Json → Except String Json) (it : Nat)
    (r : RoundState) (b : RespBlock)
    (h : noTextBlocks r.ls.messageContent = true) :
    noTextBlocks (processBlock exec it r b).ls.messageContent = true := by
  by_cases hbroke : r.broke = true
  · simpa [processBlock, hbroke] using h
  · have hb : r.broke = false := by simpa using hbroke
    cases b with
    | text t =>
        rw [processBlock_text exec it r t hb]
        exact h
    | toolUse name input =>
        by_cases hrc : isRepeatedCall r.ls.calledTools name input = true
        · rw [processBlock_repeat exec it r name input hb hrc]
          exact h
        · have hrc' : isRepeatedCall r.ls.calledTools name input = false := by
            simpa using hrc
          cases hexec : exec name input with
          | ok res =>
              have hmc : (processBlock exec it r (.toolUse name input)).ls.messageContent
                  = r.ls.messageContent
                    ++ [.toolUse name input, .toolResult name input res] := by
                rw [processBlock_tool_ok exec it r name input res hb hrc' hexec]
              rw [hmc]
              simp only [noTextBlocks] at h ⊢
              rw [List.all_append, h]
              rfl
          | error e =>
              have hmc : (processBlock exec it r (.toolUse name input)).ls.messageContent
                  = r.ls.messageContent
                    ++ [.toolUse name input, .toolResult name input toolFailResult] := by
                rw [processBlock_tool_err exec it r name input e hb hrc' hexec]
              rw [hmc]
              simp only [noTextBlocks] at h ⊢
              rw [List.all_append, h]
              rfl

theorem foldl_noText (exec : String → Json → Except String Json) (it : Nat)
    (bs : List RespBlock) :
    ∀ r : RoundState, noTextBlocks r.ls.messageContent = true →
    noTextBlocks (bs.foldl (processBlock exec it) r).ls.messageContent = true := by
  induction bs with
  | nil =>
      intro r h
      exact h
  | cons b bs ih =>
      intro r h
      rw [List.foldl_cons]
      exact ih _ (processBlock_noText exec it r b h)

/-- A round that leaves the loop flag up flushes no text into the output. -/
theorem doRound_noText (model : Bool → List HistEntry → List RespBlock)
    (exec : String → Json → Except String Json) (wt : Bool) (st : LoopState)
    (h0 : noTextBlocks st.messageContent = true)
    (hsc1 : (doRound model exec wt st).shouldContinue = true) :
    noTextBlocks (doRound model exec wt st).messageContent = true := by
  simp only [doRound] at hsc1 ⊢
  by_cases htc : ((model wt st.conversationHistory).foldl
      (processBlock exec (st.iterations + 1))
      ⟨⟨st.messageContent, st.conversationHistory, st.shouldContinue, st.hasAnyToolCalls,
        st.iterations + 1, st.calledTools, st.repeatHits⟩,
        false, [], "", false⟩).hasToolCallsThisRound = true
  · rw [finishRound_of_toolCalls _ htc] at hsc1 ⊢
    exact foldl_noText exec (st.iterations + 1) (model wt st.conversationHistory)
      ⟨⟨st.messageContent, st.conversationHistory, st.shouldContinue, st.hasAnyToolCalls,
        st.iterations + 1, st.calledTools, st.repeatHits⟩, false, [], "", false⟩ h0
  · rw [finishRound_shouldContinue_false _ (by simpa using htc)] at hsc1
    cases hsc1

/-- C2 (amended): the output of `sendMessage` keeps every `toolUse` and
`toolResult` block in chronological order, but text blocks only from the
round that ends the loop (plus any cap/fallback text): a round whose text
accompanied tool calls and kept the loop going contributes no text block to
the output — formally, as long as the loop flag is still up, the output
accumulator contains no text block at all. -/
theorem runLoop_messageContent_noText (model : Bool → List HistEntry → List RespBlock)
    (exec : String → Json → Except String Json) (wt : Bool) (fuel : Nat) :
    ∀ st : LoopState, noTextBlocks st.messageContent = true →
    (runLoop model exec wt fuel st).shouldContinue = true →
    noTextBlocks (runLoop model exec wt fuel st).messageContent = true := by
  induction fuel with
  | zero =>
      intro st h0 _
      exact h0
  | succ f ih =>
      intro st h0 hc
      by_cases hsc : st.shouldContinue = true
      · rw [runLoop_succ_of_go model exec wt f st hsc] at hc ⊢
        by_cases hsc1 : (doRound model exec wt st).shouldContinue = true
        · exact ih _ (doRound_noText model exec wt st h0 hsc1) hc
        · rw [runLoop_of_stop model exec wt f _ (by simpa using hsc1)] at hc
          exact absurd hc (by simpa using hsc1)
      · rw [runLoop_of_stop model exec wt (f + 1) st (by simpa using hsc)]
        exact h0

/-- C2 witness: one round of the loop against a tool-requesting model leaves
the loop flag up and an output accumulator containing no text blocks. -/
theorem runLoop_messageContent_noText_witness :
    noTextBlocks (runLoop repeatModel okExec true 1 (initLoopState [userMsg])).messageContent
      = true :=
  runLoop_messageContent_noText repeatModel okExec true 1 (initLoopState [userMsg]) rfl rfl

/-- A model whose first, tool-calling round also carries the text `"t1"`,
followed by a pure-text round `"4"`. -/
def dropTextModel : Bool → List HistEntry → List RespBlock := fun _ h =>
  if h.length ≤ 1 then [.text "t1", .toolUse "add" (Json.num 7)] else [.text "4"]

/-- C2 counterexample: the text block `"t1"` was emitted by the model in a
round that also contained a tool call, yet it is absent from the returned
content — the output is not the concatenation of every text block produced
across all rounds. -/
theorem sendMessage_drops_tool_round_text_cex :
    sendMessage dropTextModel okExec [addTool] [userMsg]
      = [.toolUse "add" (.num 7), .toolResult "add" (.num 7) (.num 0), .text "4"]
  ∧ MessageContent.text "t1" ∉ sendMessage dropTextModel okExec [addTool] [userMsg] := by
  refine ⟨rfl, ?_⟩
  intro hmem
  rw [show sendMessage dropTextModel okExec [addTool] [userMsg]
      = [.toolUse "add" (.num 7), .toolResult "add" (.num 7) (.num 0), .text "4"] from rfl]
    at hmem
  simp at hmem

/-! ## The iteration cap (C5) and the per-execution history entries (C6) -/

/-- C5 (amended): against a model that requests a further tool call in every
tool-enabled response, provided the repeated-call branch never fires during
the run (the broken heuristic can only fire on a serialize/re-serialize
cross-match, never on an exact repeat), `sendMessage` performs exactly
`maxIterations` (20) model round trips; it then issues exactly one
additional plain (tool-less) request built from the last input message's
text, appending only the first text block of that response (`capText`) to
the loop's accumulated output. -/
theorem sendMessage_cap_after_max_iterations (model : Bool → List HistEntry → List RespBlock)
    (exec : String → Json → Except String Json)
    (tools : List McpTool) (messages : List Message)
    (htools : 0 < tools.length)
    (hmodel : ∀ h, (model true h).any isToolUseBlock = true)
    (hrep : (sendMessageRun model exec tools messages).repeatHits = 0) :
    (sendMessageRun model exec tools messages).iterations = maxIterations
  ∧ sendMessage model exec tools messages
      = (sendMessageRun model exec tools messages).messageContent
        ++ capText model messages := by
  have hwt : decide (0 < tools.length) = true := by simpa using htools
  have hrun : sendMessageRun model exec tools messages
      = runLoop model exec true maxIterations (initLoopState messages) := by
    rw [sendMessageRun, hwt]
  have hrep' : (runLoop model exec true maxIterations (initLoopState messages)).repeatHits
      = (initLoopState messages).repeatHits := by
    rw [← hrun]
    exact hrep
  obtain ⟨g1, g2, g3⟩ :=
    runLoop_allTool model exec maxIterations (initLoopState messages) hmodel rfl hrep'
  have hiter : (sendMessageRun model exec tools messages).iterations = maxIterations := by
    rw [hrun, g1]
    rfl
  have hsc : (sendMessageRun model exec tools messages).shouldContinue = true := by
    rw [hrun]
    exact g2
  have hany : (sendMessageRun model exec tools messages).hasAnyToolCalls = true := by
    rw [hrun, g3]
    rfl
  refine ⟨hiter, ?_⟩
  simp only [sendMessage]
  rw [if_neg (by simp [hany]), if_pos ⟨hiter.symm.le, hsc⟩]

/-- A model whose requested tool call is fresh in every round (its argument
is the current history length, which grows every round). -/
def freshModel : Bool → List HistEntry → List RespBlock :=
  fun _ h => [.toolUse "t" (Json.num (Int.ofNat h.length))]

/-- C5 witness: the fresh-call model drives the loop through all 20 rounds
and the summarizing cap call is appended. -/
theorem sendMessage_cap_after_max_iterations_witness :
    (sendMessageRun freshModel okExec [addTool] [userMsg]).iterations = maxIterations
  ∧ sendMessage freshModel okExec [addTool] [userMsg]
      = (sendMessageRun freshModel okExec [addTool] [userMsg]).messageContent
        ++ capText freshModel [userMsg] :=
  sendMessage_cap_after_max_iterations freshModel okExec [addTool] [userMsg]
    (by decide) (fun _ => rfl) rfl

/-- A model that requests a tool call in every response, whose second call's
serialized key collides with the double-serialized memo entry of its first:
round 1 calls `a` with the string `b`, every later round calls `a` with the
string `"b"` (quotes included). -/
def crossMatchModel : Bool → List HistEntry → List RespBlock := fun _ h =>
  if h.length ≤ 1 then [.toolUse "a" (.str "b")] else [.toolUse "a" (.str "\"b\"")]

/-- C5 counterexample: `crossMatchModel` requests a further tool call in
every response, yet the call performs only 2 round trips — the repeat branch
fires on the cross-match at round 2 and ends the loop — not the
`maxIterations = 20` the claim demands for every such model (and no
summarizing final request is issued, `shouldContinue` being down). -/
theorem sendMessage_cap_early_exit_cex :
    (∀ h : List HistEntry, (crossMatchModel true h).any isToolUseBlock = true)
  ∧ maxIterations = 20
  ∧ (sendMessageRun crossMatchModel okExec [addTool] [userMsg]).iterations = 2
  ∧ (sendMessageRun crossMatchModel okExec [addTool] [userMsg]).repeatHits = 1
  ∧ (sendMessageRun crossMatchModel okExec [addTool] [userMsg]).shouldContinue = false := by
  refine ⟨?_, rfl, rfl, rfl, rfl⟩
  intro h
  simp only [crossMatchModel]
  split <;> rfl

/-- C6 (amended): a successful tool execution appends the `toolUse` and
`toolResult` blocks (echoing name, args and result) to the output
accumulator, and appends the serialized-result user entry to the
model-facing history — but the preceding assistant entry is appended only
when the round has produced text so far (carrying that latest text block) or
when this is the first round (carrying the placeholder naming the tool when
there is no text): a successful execution in a later round with no text that
round appends exactly one history entry, not two. -/
theorem toolSuccess_appends (exec : String → Json → Except String Json) (it : Nat)
    (r : RoundState) (name : String) (input res : Json)
    (hbroke : r.broke = false)
    (hrc : isRepeatedCall r.ls.calledTools name input = false)
    (hexec : exec name input = .ok res) :
    (processBlock exec it r (.toolUse name input)).ls.messageContent
      = r.ls.messageContent ++ [.toolUse name input, .toolResult name input res]
  ∧ (processBlock exec it r (.toolUse name input)).ls.conversationHistory
      = r.ls.conversationHistory
        ++ (if r.modelTextResponse ≠ "" ∨ it = 1 then
              [(⟨.assistant, .plain (if r.modelTextResponse ≠ "" then r.modelTextResponse
                  else placeholderText name)⟩ : HistEntry)]
            else [])
        ++ [(⟨.user, .plain (resultLine name res)⟩ : HistEntry)] := by
  rw [processBlock_tool_ok exec it r name input res hbroke hrc hexec]
  exact ⟨rfl, rfl⟩

/-- The round state at the start of a (second) round on a fresh call. -/
def round2State : RoundState := ⟨initLoopState [userMsg], false, [], "", false⟩

/-- C6 witness: the amended claim at a concrete round-2 state with no text:
the history delta is the single user entry. -/
theorem toolSuccess_appends_witness :
    (processBlock okExec 2 round2State (.toolUse "t" (Json.num 1))).ls.messageContent
      = round2State.ls.messageContent
        ++ [.toolUse "t" (Json.num 1), .toolResult "t" (Json.num 1) (Json.num 0)]
  ∧ (processBlock okExec 2 round2State (.toolUse "t" (Json.num 1))).ls.conversationHistory
      = round2State.ls.conversationHistory
        ++ (if round2State.modelTextResponse ≠ "" ∨ 2 = 1 then
              [(⟨.assistant, .plain (if round2State.modelTextResponse ≠ "" then
                  round2State.modelTextResponse else placeholderText "t")⟩ : HistEntry)]
            else [])
        ++ [(⟨.user, .plain (resultLine "t" (Json.num 0))⟩ : HistEntry)] :=
  toolSuccess_appends okExec 2 round2State "t" (Json.num 1) (Json.num 0) rfl rfl rfl

/-- A model that calls tool `t` in rounds 1 and 2 (with fresh arguments and
no accompanying text) and answers with pure text in round 3. -/
def twoToolModel : Bool → List HistEntry → List RespBlock := fun _ h =>
  if h.length = 1 then [.toolUse "t" (Json.num 1)]
  else if h.length = 3 then [.toolUse "t" (Json.num 2)]
  else [.text "done"]

/-- C6 counterexample: two successful tool executions, but the full
model-facing history after the call has 5 entries, not the 6 the claim's
"exactly two entries per successful execution" requires: round 2's
execution (no text, `iterations = 2`) appended only the user-role result
entry, no assistant entry. -/
theorem toolSuccess_single_entry_cex :
    (sendMessageRun twoToolModel echoExec [addTool] [userMsg]).conversationHistory
      = [⟨.user, .plain "q"⟩,
         ⟨.assistant, .plain (placeholderText "t")⟩,
         ⟨.user, .plain (resultLine "t" (Json.num 1))⟩,
         ⟨.user, .plain (resultLine "t" (Json.num 2))⟩,
         ⟨.assistant, .plain "done"⟩]
  ∧ (sendMessageRun twoToolModel echoExec [addTool] [userMsg]).calledTools.length = 2 :=
  ⟨rfl, rfl⟩
